import Mathlib

/-!
# Game Boy cartridge header loader (`lib/cart.c`, `include/cart.h`)

A shallow embedding of the cartridge loader: the static context, the lookup
tables, the four `get_*` accessors and `load_cart`.

Conventions of the embedding.

* A byte (`u8`, `char`) is a `Fin 256`; a `u16` or `int` value is a `Nat` or
  `Int`, reduced modulo `2 ^ 16` where the C assignment converts to `u16`.
* Memory blocks are lists of bytes.  A C expression whose evaluation is
  undefined (an access outside the object it indexes, an `int` computation
  whose result is not representable) evaluates to `none`; a defined one
  evaluates to `some v`.
* A `const char *` value is an `Option String`: `none` is the null pointer.
* `int` is 32 bits wide and `u16` values are stored low byte first, as on the
  hosts the emulator is built for.
-/

namespace Cart

/-- The type `u8`: one byte. -/
abbrev u8 := Fin 256

/-- A value of type `const char *`: `none` is the null pointer. -/
abbrev c_str := Option String

/-! ## `cart.h`: layout of `rom_header`

Every member is a byte, a byte array or a `u16` at an even offset, so the
structure has no padding and each member sits at the sum of the sizes of the
members before it. -/

/-- Offset of `entry_point` (4 bytes). -/
def off_entry_point : Nat := 0
/-- Offset of `logo` (0x30 bytes). -/
def off_logo : Nat := off_entry_point + 4
/-- Offset of `title` (16 bytes). -/
def off_title : Nat := off_logo + 0x30
/-- Offset of `licensee_code` (`u16`). -/
def off_licensee_code : Nat := off_title + 16
/-- Offset of `sgb_flag`. -/
def off_sgb_flag : Nat := off_licensee_code + 2
/-- Offset of `cartridge_type`. -/
def off_cartridge_type : Nat := off_sgb_flag + 1
/-- Offset of `rom_size`. -/
def off_rom_size : Nat := off_cartridge_type + 1
/-- Offset of `ram_size`. -/
def off_ram_size : Nat := off_rom_size + 1
/-- Offset of `destination_code`. -/
def off_destination_code : Nat := off_ram_size + 1
/-- Offset of `old_licensee_code`. -/
def off_old_licensee_code : Nat := off_destination_code + 1
/-- Offset of `mask_rom_version_number`. -/
def off_mask_rom_version_number : Nat := off_old_licensee_code + 1
/-- Offset of `header_checksum`. -/
def off_header_checksum : Nat := off_mask_rom_version_number + 1
/-- Offset of `global_checksum` (`u16`). -/
def off_global_checksum : Nat := off_header_checksum + 1

/-! ## `cart.c`: the context -/

/-- The structure `cart_context`.  `filename` holds the bytes of the stored
string, `rom_data` the heap block the pointer refers to (empty while the
pointer is null) and `header` the offset of the header inside that block
(`none` while the pointer is null). -/
structure cart_context where
  filename : List u8
  rom_size : Nat
  rom_data : List u8
  header : Option Nat
  deriving DecidableEq, Repr

/-- The static `ctx` before any load: all members zero. -/
def ctx_init : cart_context :=
  { filename := [], rom_size := 0, rom_data := [], header := none }

/-- Read of a `u8` member of `*ctx.header` at member offset `off`. -/
def header_u8 (ctx : cart_context) (off : Nat) : Option u8 :=
  match ctx.header with
  | none => none
  | some h => ctx.rom_data[h + off]?

/-- Read of a `u16` member of `*ctx.header` at member offset `off`. -/
def header_u16 (ctx : cart_context) (off : Nat) : Option Nat :=
  match header_u8 ctx off, header_u8 ctx (off + 1) with
  | some lo, some hi => some (lo.val + 256 * hi.val)
  | _, _ => none

/-! ## `cart.c`: the tables -/

/-- The array `CARTRIDGE_TYPES`. -/
def CARTRIDGE_TYPES : List String := [
  "ROM ONLY",
  "MBC1",
  "MBC1+RAM",
  "MBC1+RAM+BATTERY",
  "0x04 ???",
  "MBC2",
  "MBC2+BATTERY",
  "0x07 ???",
  "ROM+RAM 1",
  "ROM+RAM+BATTERY 1",
  "0x0A ???",
  "MMM01",
  "MMM01+RAM",
  "MMM01+RAM+BATTERY",
  "0x0E ???",
  "MBC3+TIMER+BATTERY",
  "MBC3+TIMER+RAM+BATTERY 2",
  "MBC3",
  "MBC3+RAM 2",
  "MBC3+RAM+BATTERY 2",
  "0x14 ???",
  "0x15 ???",
  "0x16 ???",
  "0x17 ???",
  "0x18 ???",
  "MBC5",
  "MBC5+RAM",
  "MBC5+RAM+BATTERY",
  "MBC5+RUMBLE",
  "MBC5+RUMBLE+RAM",
  "MBC5+RUMBLE+RAM+BATTERY",
  "0x1F ???",
  "MBC6",
  "0x21 ???",
  "MBC7+SENSOR+RUMBLE+RAM+BATTERY"]

/-- An array of `n` string pointers given by designated initializers
`[index] = "text"`: an element without initializer is a null pointer. -/
def designated (n : Nat) (inits : List (Nat × String)) : List c_str :=
  (List.range n).map (fun i => inits.lookup i)

/-- The array `LICENSEE_CODE[0xA5]`. -/
def LICENSEE_CODE : List c_str := designated 0xA5 [
  (0x00, "None"),
  (0x01, "Nintendo R&D1"),
  (0x08, "Capcom"),
  (0x13, "Electronic Arts"),
  (0x18, "Hudson Soft"),
  (0x19, "b-ai"),
  (0x20, "kss"),
  (0x22, "pow"),
  (0x24, "PCM Complete"),
  (0x25, "san-x"),
  (0x28, "Kemco Japan"),
  (0x29, "seta"),
  (0x30, "Viacom"),
  (0x31, "Nintendo"),
  (0x32, "Bandai"),
  (0x33, "Ocean/Acclaim"),
  (0x34, "Konami"),
  (0x35, "Hector"),
  (0x37, "Taito"),
  (0x38, "Hudson"),
  (0x39, "Banpresto"),
  (0x41, "Ubi Soft"),
  (0x42, "Atlus"),
  (0x44, "Malibu"),
  (0x46, "angel"),
  (0x47, "Bullet-Proof"),
  (0x49, "irem"),
  (0x50, "Absolute"),
  (0x51, "Acclaim"),
  (0x52, "Activision"),
  (0x53, "American sammy"),
  (0x54, "Konami"),
  (0x55, "Hi tech entertainment"),
  (0x56, "LJN"),
  (0x57, "Matchbox"),
  (0x58, "Mattel"),
  (0x59, "Milton Bradley"),
  (0x60, "Titus"),
  (0x61, "Virgin"),
  (0x64, "LucasArts"),
  (0x67, "Ocean"),
  (0x69, "Electronic Arts"),
  (0x70, "Infogrames"),
  (0x71, "Interplay"),
  (0x72, "Broderbund"),
  (0x73, "sculptured"),
  (0x75, "sci"),
  (0x78, "THQ"),
  (0x79, "Accolade"),
  (0x80, "misawa"),
  (0x83, "lozc"),
  (0x86, "Tokuma Shoten Intermedia"),
  (0x87, "Tsukuda Original"),
  (0x91, "Chunsoft"),
  (0x92, "Video system"),
  (0x93, "Ocean/Acclaim"),
  (0x95, "Varie"),
  (0x96, "Yonezawa/s’pal"),
  (0x97, "Kaneko"),
  (0x99, "Pack in soft"),
  (0xA4, "Konami (Yu-Gi-Oh!)")]

/-! ## `cart.c`: the accessors -/

/-- The function `get_licensee`. -/
def get_licensee (ctx : cart_context) : Option c_str :=
  match header_u16 ctx off_licensee_code with
  | none => none
  | some code =>
    if code ≤ 0xA5 then LICENSEE_CODE[code]?
    else some (some "UNKNOWN")

/-- The function `get_cartridge_type`. -/
def get_cartridge_type (ctx : cart_context) : Option c_str :=
  match header_u8 ctx off_cartridge_type with
  | none => none
  | some code => (CARTRIDGE_TYPES[code.val]?).map some

/-- The shift `a << n` on `int`: defined when `a` is not negative, `n` is
below the width 32 and the result is representable. -/
def int_shl (a : Int) (n : Nat) : Option Int :=
  if 0 ≤ a ∧ n < 32 ∧ a * 2 ^ n < 2 ^ 31 then some (a * 2 ^ n) else none

/-- The product `a * b` on `int`: defined when the result is representable. -/
def int_mul (a b : Int) : Option Int :=
  if -(2 ^ 31) ≤ a * b ∧ a * b < 2 ^ 31 then some (a * b) else none

/-- The function `get_rom_size`: `32 * (1 << size)`, in KiB. -/
def get_rom_size (ctx : cart_context) : Option Int :=
  match header_u8 ctx off_rom_size with
  | none => none
  | some size =>
    match int_shl 1 size.val with
    | none => none
    | some s => int_mul 32 s

/-- The function `get_ram_size`: the local table indexed by the code, in KiB. -/
def get_ram_size (ctx : cart_context) : Option Int :=
  let ram_size : List Int := [0, 0, 8, 32, 128, 64]
  match header_u8 ctx off_ram_size with
  | none => none
  | some size => ram_size[size.val]?

/-! ## `cart.c`: `load_cart` -/

/-- Store of the byte `v` through `ctx.header` at member offset `off`. -/
def header_store_u8 (ctx : cart_context) (off : Nat) (v : u8) : Option cart_context :=
  match ctx.header with
  | none => none
  | some h =>
    if h + off < ctx.rom_data.length then
      some { ctx with rom_data := ctx.rom_data.set (h + off) v }
    else none

/-- The string `%s` prints from the address `addr` of a block: the bytes before
the first zero byte at or after `addr`. -/
def c_string_at (mem : List u8) (addr : Nat) : Option (List u8) :=
  if (0 : u8) ∈ mem.drop addr then some ((mem.drop addr).takeWhile (fun b => b ≠ 0))
  else none

/-- Conversion of an `int` value to `u16`. -/
def to_u16 (x : Int) : Nat := (x % 2 ^ 16).toNat

/-- The loop
`for (u16 address = 0x0134; address <= 0x014C; address++)
   calculated = calculated - ctx.rom_data[address] - 1;`
started at `address` with the accumulator `calculated`.  The first argument
bounds the number of tests of the loop condition; `load_cart` runs the loop
with the bound 0x10000, the number of values of the `u16` counter, of which
the 26 tests from 0x0134 on use a small part (`checksum_loop_eq`). -/
def checksum_loop (rom_data : List u8) : Nat → Nat → Nat → Option Nat
  | 0, _, _ => none
  | fuel + 1, address, calculated =>
    if address ≤ 0x014C then
      match rom_data[address]? with
      | none => none
      | some b =>
        checksum_loop rom_data fuel (to_u16 ((address : Int) + 1))
          (to_u16 ((calculated : Int) - (b.val : Int) - 1))
    else some calculated

/-- The local `calculated` of `load_cart` once the loop has run and
`calculated = calculated & 0xFF` has been executed, for the block `rom_data`. -/
def calculated_checksum (rom_data : List u8) : Option Nat :=
  match checksum_loop rom_data 0x10000 0x0134 0 with
  | none => none
  | some calculated => some (calculated &&& 0xFF)

/-- The values `load_cart` hands to `printf` once the file is open. -/
structure cart_report where
  title : List u8
  cartridge_type : u8
  cartridge_type_name : c_str
  rom_size_kib : Int
  ram_size_kib : Int
  licensee_code : Nat
  licensee : c_str
  rom_vers : u8
  header_checksum : u8
  passed : Bool
  deriving DecidableEq, Repr

/-- What a call of `load_cart` leaves: the context afterwards, the report
printed (`none` when only the message of the failed `fopen` was printed) and
the value returned. -/
structure load_outcome where
  ctx : cart_context
  printed : Option cart_report
  ret : Bool
  deriving DecidableEq, Repr

/-- The function `load_cart`.  `file` is what the C library delivers for
`cart_filename`: `none` when `fopen` fails, otherwise the contents of the
file, of which `fread` stores the first `ctx.rom_size` bytes in the block
obtained from `malloc`. -/
def load_cart (ctx : cart_context) (cart_filename : List u8) (file : Option (List u8)) :
    Option load_outcome :=
  let ctx := { ctx with filename := cart_filename.take 1023 }
  match file with
  | none => some { ctx := ctx, printed := none, ret := false }
  | some contents => do
    let ctx := { ctx with rom_size := contents.length % 2 ^ 32 }
    let ctx := { ctx with rom_data := contents.take ctx.rom_size }
    let ctx := { ctx with header := some 0x100 }
    let ctx ← header_store_u8 ctx (off_title + 15) 0x00
    let title ← c_string_at ctx.rom_data (0x100 + off_title)
    let cartridge_type ← header_u8 ctx off_cartridge_type
    let cartridge_type_name ← get_cartridge_type ctx
    let rom_size_kib ← get_rom_size ctx
    let ram_size_kib ← get_ram_size ctx
    let licensee_code ← header_u16 ctx off_licensee_code
    let licensee ← get_licensee ctx
    let rom_vers ← header_u8 ctx off_mask_rom_version_number
    let calculated ← calculated_checksum ctx.rom_data
    let header_checksum ← header_u8 ctx off_header_checksum
    let passed := decide (calculated = header_checksum.val)
    some {
      ctx := ctx
      printed := some {
        title := title
        cartridge_type := cartridge_type
        cartridge_type_name := cartridge_type_name
        rom_size_kib := rom_size_kib
        ram_size_kib := ram_size_kib
        licensee_code := licensee_code
        licensee := licensee
        rom_vers := rom_vers
        header_checksum := header_checksum
        passed := passed }
      ret := passed }

/-- The addresses at which the loop of `load_cart` reads `ctx.rom_data`, in
the order of the reads: the control of `checksum_loop` with each pass recorded. -/
def checksum_loop_visits : Nat → Nat → List Nat
  | 0, _ => []
  | fuel + 1, address =>
    if address ≤ 0x014C then
      address :: checksum_loop_visits fuel (to_u16 ((address : Int) + 1))
    else []

/-- The accumulation of the loop body of `load_cart` over a sequence of bytes:
`calculated = calculated - byte - 1` in a `u16` started at 0. -/
def checksum_u16 (bytes : List u8) : Nat :=
  bytes.foldl (fun (calculated : Nat) (byte : u8) =>
    to_u16 ((calculated : Int) - (byte.val : Int) - 1)) 0

/-- The algorithm the comment in `load_cart` quotes, over a sequence of bytes:
`checksum = checksum - byte - 1` in a `uint8_t` started at 0. -/
def checksum_u8 (bytes : List u8) : Nat :=
  bytes.foldl (fun (checksum : Nat) (byte : u8) =>
    (((checksum : Int) - (byte.val : Int) - 1) % 256).toNat) 0

/-! ## `cart.h`: the header as a value -/

/-- The structure `rom_header`: the members in the order of their declaration. -/
structure rom_header where
  entry_point : List u8
  logo : List u8
  title : List u8
  licensee_code : Nat
  sgb_flag : u8
  cartridge_type : u8
  rom_size : u8
  ram_size : u8
  destination_code : u8
  old_licensee_code : u8
  mask_rom_version_number : u8
  header_checksum : u8
  global_checksum : Nat
  deriving DecidableEq, Repr

/-- Read of an array member of `*ctx.header`: the `n` bytes at member offset `off`. -/
def header_bytes (ctx : cart_context) (off n : Nat) : Option (List u8) :=
  match ctx.header with
  | none => none
  | some h =>
    if h + off + n ≤ ctx.rom_data.length then some ((ctx.rom_data.drop (h + off)).take n)
    else none

/-- The value `*ctx.header`: every member read at its offset. -/
def read_header (ctx : cart_context) : Option rom_header := do
  let entry_point ← header_bytes ctx off_entry_point 4
  let logo ← header_bytes ctx off_logo 0x30
  let title ← header_bytes ctx off_title 16
  let licensee_code ← header_u16 ctx off_licensee_code
  let sgb_flag ← header_u8 ctx off_sgb_flag
  let cartridge_type ← header_u8 ctx off_cartridge_type
  let rom_size ← header_u8 ctx off_rom_size
  let ram_size ← header_u8 ctx off_ram_size
  let destination_code ← header_u8 ctx off_destination_code
  let old_licensee_code ← header_u8 ctx off_old_licensee_code
  let mask_rom_version_number ← header_u8 ctx off_mask_rom_version_number
  let header_checksum ← header_u8 ctx off_header_checksum
  let global_checksum ← header_u16 ctx off_global_checksum
  some {
    entry_point := entry_point
    logo := logo
    title := title
    licensee_code := licensee_code
    sgb_flag := sgb_flag
    cartridge_type := cartridge_type
    rom_size := rom_size
    ram_size := ram_size
    destination_code := destination_code
    old_licensee_code := old_licensee_code
    mask_rom_version_number := mask_rom_version_number
    header_checksum := header_checksum
    global_checksum := global_checksum }

/-! ## The checksum validator as the specification words it -/

/-- The value `validate(buffer).computed` of the specification: an 8-bit
accumulator starts at 0 and takes `accumulator - byte - 1` modulo 256 for each
byte of the buffer at the offsets 0x134 through 0x14C inclusive. -/
def validate_computed (buffer : List u8) : Nat :=
  (List.range' 0x134 (0x14C + 1 - 0x134)).foldl
    (fun accumulator offset =>
      (((accumulator : Int) - ((buffer.getD offset 0).val : Int) - 1) % 256).toNat) 0

/-- The value `validate(buffer).passed` of the specification: the computed
value equals the byte at offset 0x14D. -/
def validate_passed (buffer : List u8) : Bool :=
  decide (validate_computed buffer = (buffer.getD 0x14D 0).val)

/-! ## Concrete images and contexts -/

/-- An image of `n` zero bytes in which the bytes listed in `patch` are stored
at their offsets. -/
def image (n : Nat) (patch : List (Nat × u8)) : List u8 :=
  patch.foldl (fun img p => img.set p.1 p.2) (List.replicate n 0)

/-- The context as `load_cart` has set it when it calls the accessors: the
block `rom_data` and the header at offset 0x100 of it. -/
def ctx_of (rom_data : List u8) : cart_context :=
  { filename := [], rom_size := rom_data.length, rom_data := rom_data, header := some 0x100 }

/-- The file name `rom.gb`. -/
def rom_gb : List u8 := [0x72, 0x6F, 0x6D, 0x2E, 0x67, 0x62]

/-- A file of 0x150 bytes: 0x80 at offset 0x143 (where a colour cartridge
keeps its flag), zero at every other offset from 0x134 through 0x14C, and at
0x14D the checksum 0x67 of those bytes. -/
def image_cgb : List u8 := image 0x150 [(0x143, 0x80), (0x14D, 0x67)]

/-- A file of 0x14E bytes, so ending with the byte at offset 0x14D: zero
everywhere but for 0xE7 at 0x14D. -/
def image_short : List u8 := image 0x14E [(0x14D, 0xE7)]

/-- A file of 0x150 zero bytes: the checksum computed over it is 0xE7 and the
byte at 0x14D is 0x00. -/
def image_zero : List u8 := image 0x150 []

/-- The 12 bytes of the text `POKEMON BLUE`. -/
def pokemon_blue : List u8 :=
  [0x50, 0x4F, 0x4B, 0x45, 0x4D, 0x4F, 0x4E, 0x20, 0x42, 0x4C, 0x55, 0x45]

/-- A file of 0x150 bytes whose title field holds `POKEMON BLUE` followed by
four spaces (0x20). -/
def image_pokemon : List u8 :=
  image 0x150 [(0x134, 0x50), (0x135, 0x4F), (0x136, 0x4B), (0x137, 0x45), (0x138, 0x4D),
    (0x139, 0x4F), (0x13A, 0x4E), (0x13B, 0x20), (0x13C, 0x42), (0x13D, 0x4C), (0x13E, 0x55),
    (0x13F, 0x45), (0x140, 0x20), (0x141, 0x20), (0x142, 0x20), (0x143, 0x20)]

/-- A file of 0x150 bytes whose title field holds `POKEMON BLUE` followed by
four zero bytes. -/
def image_pokemon_zero : List u8 :=
  image 0x150 [(0x134, 0x50), (0x135, 0x4F), (0x136, 0x4B), (0x137, 0x45), (0x138, 0x4D),
    (0x139, 0x4F), (0x13A, 0x4E), (0x13B, 0x20), (0x13C, 0x42), (0x13D, 0x4C), (0x13E, 0x55),
    (0x13F, 0x45)]

/-- The file `image_cgb` with 0x00 at offset 0x143 in place of 0x80. -/
def image_dmg : List u8 := image 0x150 [(0x14D, 0x67)]

/-- A file of 0x150 bytes with the licensee code 0x0031 (`Nintendo`). -/
def image_nintendo : List u8 := image 0x150 [(0x144, 0x31)]

end Cart

namespace Cart

/-! ## The accessors in terms of the code they read -/

theorem get_cartridge_type_of_code (ctx : cart_context) (code : u8)
    (hcode : header_u8 ctx off_cartridge_type = some code) :
    get_cartridge_type ctx = (CARTRIDGE_TYPES[code.val]?).map some := by
  simp [get_cartridge_type, hcode]

theorem get_ram_size_of_code (ctx : cart_context) (size : u8)
    (hsize : header_u8 ctx off_ram_size = some size) :
    get_ram_size ctx = ([0, 0, 8, 32, 128, 64] : List Int)[size.val]? := by
  simp [get_ram_size, hsize]

theorem get_licensee_of_code (ctx : cart_context) (code : Nat)
    (hcode : header_u16 ctx off_licensee_code = some code) :
    get_licensee ctx = if code ≤ 0xA5 then LICENSEE_CODE[code]? else some (some "UNKNOWN") := by
  simp [get_licensee, hcode]

theorem get_rom_size_of_code (ctx : cart_context) (size : u8)
    (hsize : header_u8 ctx off_rom_size = some size) :
    get_rom_size ctx = (int_shl 1 size.val).bind (int_mul 32) := by
  simp only [get_rom_size, hsize]
  cases int_shl 1 size.val <;> rfl

theorem int_shl_one (n : Nat) (hn : n ≤ 30) : int_shl 1 n = some (2 ^ n) := by
  have h : (2 : Nat) ^ n ≤ 2 ^ 30 := Nat.pow_le_pow_right (by norm_num) hn
  have h2 : ((2 : Int) ^ n) ≤ 2 ^ 30 := by exact_mod_cast h
  have h3 : (1 : Int) * 2 ^ n < 2 ^ 31 := by
    have : ((2 : Int) ^ 30) < 2 ^ 31 := by norm_num
    linarith
  have h4 : n < 32 := by omega
  unfold int_shl
  rw [if_pos ⟨by norm_num, h4, h3⟩, one_mul]

theorem int_mul_32_pow (n : Nat) (hn : n ≤ 25) : int_mul 32 (2 ^ n) = some (32 * 2 ^ n) := by
  have h : (2 : Nat) ^ n ≤ 2 ^ 25 := Nat.pow_le_pow_right (by norm_num) hn
  have h2 : ((2 : Int) ^ n) ≤ 2 ^ 25 := by exact_mod_cast h
  have h0 : (0 : Int) < 2 ^ n := by positivity
  have h3 : (32 : Int) * 2 ^ n < 2 ^ 31 := by
    have : (32 : Int) * 2 ^ 25 < 2 ^ 31 := by norm_num
    linarith
  have h4 : -(2 ^ 31 : Int) ≤ 32 * 2 ^ n := by
    have : -(2 ^ 31 : Int) ≤ 0 := by norm_num
    linarith
  unfold int_mul
  rw [if_pos ⟨h4, h3⟩]

theorem int_mul_32_pow_overflow (n : Nat) (hn : 26 ≤ n) : int_mul 32 (2 ^ n) = none := by
  have h : (2 : Nat) ^ 26 ≤ 2 ^ n := Nat.pow_le_pow_right (by norm_num) hn
  have h2 : ((2 : Int) ^ 26) ≤ 2 ^ n := by exact_mod_cast h
  have h3 : ¬ ((32 : Int) * 2 ^ n < 2 ^ 31) := by
    have : (2 : Int) ^ 31 = 32 * 2 ^ 26 := by norm_num
    linarith
  unfold int_mul
  rw [if_neg (fun hc => h3 hc.2)]

theorem get_rom_size_small (ctx : cart_context) (size : u8)
    (hsize : header_u8 ctx off_rom_size = some size) (hle : size.val ≤ 25) :
    get_rom_size ctx = some (32 * 2 ^ size.val) := by
  rw [get_rom_size_of_code ctx size hsize, int_shl_one size.val (by omega)]
  exact int_mul_32_pow size.val hle

theorem get_rom_size_large (ctx : cart_context) (size : u8)
    (hsize : header_u8 ctx off_rom_size = some size) (hle : 26 ≤ size.val) :
    get_rom_size ctx = none := by
  rw [get_rom_size_of_code ctx size hsize]
  by_cases h : size.val ≤ 30
  · rw [int_shl_one size.val h]
    exact int_mul_32_pow_overflow size.val hle
  · have h4 : ¬ (size.val < 32 ∧ (1 : Int) * 2 ^ size.val < 2 ^ 31) := by
      rintro ⟨h5, h6⟩
      have h7 : size.val = 31 := by omega
      rw [h7] at h6
      norm_num at h6
    unfold int_shl
    rw [if_neg (fun hc => h4 hc.2)]
    rfl

/-! ## The lookup tables and the accessors -/

set_option maxRecDepth 100000

/-- C3, at the licensee code 0xA5: the code passes the guard `code <= 0xA5`
and `get_licensee` indexes `LICENSEE_CODE`, which has 0xA5 elements, at 0xA5,
one past its last element; it does not return "UNKNOWN". -/
theorem get_licensee_guard_admits_0xA5 :
    header_u16 (ctx_of (image 0x150 [(0x144, 0xA5)])) off_licensee_code = some 0xA5 ∧
    LICENSEE_CODE.length = 0xA5 ∧
    get_licensee (ctx_of (image 0x150 [(0x144, 0xA5)])) = none := by
  decide

/-- C4, at the licensee code 0x02: the element of `LICENSEE_CODE` at 0x02 has
no initializer, and `get_licensee` returns that null pointer, not "UNKNOWN". -/
theorem get_licensee_gap_is_null :
    header_u16 (ctx_of (image 0x150 [(0x144, 0x02)])) off_licensee_code = some 0x02 ∧
    LICENSEE_CODE[0x02]? = some none ∧
    get_licensee (ctx_of (image 0x150 [(0x144, 0x02)])) = some none ∧
    get_licensee (ctx_of (image 0x150 [(0x144, 0x02)])) ≠ some (some "UNKNOWN") := by
  decide

/-- C5, at the cartridge type 0x23: `get_cartridge_type` indexes
`CARTRIDGE_TYPES`, which has 0x23 elements, at 0x23, one past its last
element; no error value is produced. -/
theorem get_cartridge_type_past_end :
    header_u8 (ctx_of (image 0x150 [(0x147, 0x23)])) off_cartridge_type = some 0x23 ∧
    CARTRIDGE_TYPES.length = 0x23 ∧
    get_cartridge_type (ctx_of (image 0x150 [(0x147, 0x23)])) = none := by
  decide

/-- C6, at the RAM size code 6: `get_ram_size` indexes its six-element table
at 6, one past its last element; no error value is produced. -/
theorem get_ram_size_past_end :
    header_u8 (ctx_of (image 0x150 [(0x149, 6)])) off_ram_size = some 6 ∧
    get_ram_size (ctx_of (image 0x150 [(0x149, 6)])) = none := by
  decide

/-- C7 as stated fails at the ROM size code 9: `get_rom_size` returns the
number 16384 (`32 * 2 ^ 9`), not an error. -/
theorem get_rom_size_code_9_is_number :
    header_u8 (ctx_of (image 0x150 [(0x148, 9)])) off_rom_size = some 9 ∧
    get_rom_size (ctx_of (image 0x150 [(0x148, 9)])) = some 16384 := by
  decide

/-- C7, amended: for every ROM size code from 9 on, `get_rom_size` applies the
same formula as for the codes 0..8: for a code in 9..25 it returns the number
`32 * 2 ^ code`; for a code from 26 on `32 * 2 ^ code` does not fit a 32-bit
signed `int` and is not what `get_rom_size` returns. -/
theorem get_rom_size_beyond_code_8 (ctx : cart_context) (size : u8)
    (hsize : header_u8 ctx off_rom_size = some size) (_h9 : 9 ≤ size.val) :
    (size.val ≤ 25 → get_rom_size ctx = some (32 * 2 ^ size.val)) ∧
    (26 ≤ size.val →
      (2 : Int) ^ 31 ≤ 32 * 2 ^ size.val ∧ get_rom_size ctx ≠ some (32 * 2 ^ size.val)) := by
  refine ⟨fun hle => get_rom_size_small ctx size hsize hle, fun hge => ⟨?_, ?_⟩⟩
  · have h : (2 : Nat) ^ 26 ≤ 2 ^ size.val := Nat.pow_le_pow_right (by norm_num) hge
    have h2 : ((2 : Int) ^ 26) ≤ 2 ^ size.val := by exact_mod_cast h
    have h3 : (2 : Int) ^ 31 = 32 * 2 ^ 26 := by norm_num
    linarith
  · rw [get_rom_size_large ctx size hsize hge]
    exact fun hc => Option.noConfusion hc

/-- The amended C7 at the ROM size code 9. -/
theorem get_rom_size_beyond_code_8_witness :
    header_u8 (ctx_of (image 0x150 [(0x148, 9)])) off_rom_size = some 9 ∧
    get_rom_size (ctx_of (image 0x150 [(0x148, 9)])) = some (32 * 2 ^ 9) :=
  ⟨by decide,
   (get_rom_size_beyond_code_8 (ctx_of (image 0x150 [(0x148, 9)])) 9 (by decide)
      (by decide)).1 (by decide)⟩

/-- C8: for every ROM size code `c` in 0..8, `get_rom_size` returns exactly
`32 * 2 ^ c` KiB (32 for code 0, 64 for code 1, 8192 for code 8); both the
shift `1 << c` and the product by 32 are representable in `int`. -/
theorem get_rom_size_codes_0_to_8 (ctx : cart_context) (size : u8)
    (hsize : header_u8 ctx off_rom_size = some size) (hle : size.val ≤ 8) :
    get_rom_size ctx = some (32 * 2 ^ size.val) ∧
    int_shl 1 size.val = some (2 ^ size.val) ∧
    int_mul 32 (2 ^ size.val) = some (32 * 2 ^ size.val) ∧
    (size = 0 → get_rom_size ctx = some 32) ∧
    (size = 1 → get_rom_size ctx = some 64) ∧
    (size = 8 → get_rom_size ctx = some 8192) := by
  have hrom := get_rom_size_small ctx size hsize (by omega)
  refine ⟨hrom, int_shl_one size.val (by omega), int_mul_32_pow size.val (by omega), ?_, ?_, ?_⟩
  · intro h; rw [hrom, h]; rfl
  · intro h; rw [hrom, h]; rfl
  · intro h; rw [hrom, h]; rfl

/-- C8 at the ROM size code 8. -/
theorem get_rom_size_codes_0_to_8_witness :
    header_u8 (ctx_of (image 0x150 [(0x148, 8)])) off_rom_size = some 8 ∧
    get_rom_size (ctx_of (image 0x150 [(0x148, 8)])) = some 8192 :=
  ⟨by decide,
   (get_rom_size_codes_0_to_8 (ctx_of (image 0x150 [(0x148, 8)])) 8 (by decide)
      (by decide)).2.2.2.2.2 rfl⟩

/-- C9: for the RAM size codes 0, 1, 2, 3, 4, 5, `get_ram_size` returns
0, 0, 8, 32, 128, 64 KiB respectively. -/
theorem get_ram_size_codes_0_to_5 (ctx : cart_context) (size : u8)
    (hsize : header_u8 ctx off_ram_size = some size) :
    (size = 0 → get_ram_size ctx = some 0) ∧
    (size = 1 → get_ram_size ctx = some 0) ∧
    (size = 2 → get_ram_size ctx = some 8) ∧
    (size = 3 → get_ram_size ctx = some 32) ∧
    (size = 4 → get_ram_size ctx = some 128) ∧
    (size = 5 → get_ram_size ctx = some 64) := by
  have h := get_ram_size_of_code ctx size hsize
  refine ⟨?_, ?_, ?_, ?_, ?_, ?_⟩ <;> intro hs <;> rw [h, hs] <;> rfl

/-- C9 at the RAM size code 4. -/
theorem get_ram_size_codes_0_to_5_witness :
    header_u8 (ctx_of (image 0x150 [(0x149, 4)])) off_ram_size = some 4 ∧
    get_ram_size (ctx_of (image 0x150 [(0x149, 4)])) = some 128 :=
  ⟨by decide,
   (get_ram_size_codes_0_to_5 (ctx_of (image 0x150 [(0x149, 4)])) 4
      (by decide)).2.2.2.2.1 rfl⟩

/-- C10: `CARTRIDGE_TYPES` has exactly 0x23 descriptors, and for every
cartridge type code below 0x23 `get_cartridge_type` returns the descriptor at
that index: "ROM ONLY" for 0x00, "MBC1" for 0x01 and
"MBC7+SENSOR+RUMBLE+RAM+BATTERY" for the last code 0x22. -/
theorem get_cartridge_type_below_0x23 (ctx : cart_context) (code : u8)
    (hcode : header_u8 ctx off_cartridge_type = some code) (hlt : code.val < 0x23) :
    CARTRIDGE_TYPES.length = 0x23 ∧
    (∃ h : code.val < CARTRIDGE_TYPES.length,
      get_cartridge_type ctx = some (some (CARTRIDGE_TYPES.get ⟨code.val, h⟩))) ∧
    (code = 0x00 → get_cartridge_type ctx = some (some "ROM ONLY")) ∧
    (code = 0x01 → get_cartridge_type ctx = some (some "MBC1")) ∧
    (code = 0x22 → get_cartridge_type ctx = some (some "MBC7+SENSOR+RUMBLE+RAM+BATTERY")) := by
  have h := get_cartridge_type_of_code ctx code hcode
  have hlen : CARTRIDGE_TYPES.length = 0x23 := rfl
  refine ⟨hlen, ⟨by omega, ?_⟩, ?_, ?_, ?_⟩
  · rw [h, List.getElem?_eq_getElem (by omega)]
    rfl
  · intro hs; rw [h, hs]; rfl
  · intro hs; rw [h, hs]; rfl
  · intro hs; rw [h, hs]; rfl

/-- C10 at the last cartridge type code 0x22. -/
theorem get_cartridge_type_below_0x23_witness :
    header_u8 (ctx_of (image 0x150 [(0x147, 0x22)])) off_cartridge_type = some 0x22 ∧
    get_cartridge_type (ctx_of (image 0x150 [(0x147, 0x22)])) =
      some (some "MBC7+SENSOR+RUMBLE+RAM+BATTERY") :=
  ⟨by decide,
   (get_cartridge_type_below_0x23 (ctx_of (image 0x150 [(0x147, 0x22)])) 0x22 (by decide)
      (by decide)).2.2.2.2 rfl⟩

/-! ## The checksum loop -/

theorem getElem?_of_lt (mem : List u8) (i : Nat) (h : i < mem.length) :
    mem[i]? = some (mem.getD i 0) := by
  simp [List.getElem?_eq_getElem h]

theorem to_u16_succ (a : Nat) (h : a < 0xFFFF) : to_u16 ((a : Int) + 1) = a + 1 := by
  unfold to_u16
  omega

theorem checksum_loop_eq (rom_data : List u8) (hlen : 0x14D ≤ rom_data.length) :
    ∀ (fuel address calculated : Nat), address ≤ 0x14D → 0x14D - address < fuel →
      checksum_loop rom_data fuel address calculated =
        some ((List.range' address (0x14D - address)).foldl
          (fun (acc : Nat) (a : Nat) => to_u16 ((acc : Int) - ((rom_data.getD a 0).val : Int) - 1))
          calculated) := by
  intro fuel
  induction fuel with
  | zero => intro a c _ h2; omega
  | succ fuel ih =>
    intro address calculated h1 h2
    unfold checksum_loop
    by_cases h : address ≤ 0x14C
    · have hn : 0x14D - address = (0x14D - (address + 1)) + 1 := by omega
      rw [if_pos h, getElem?_of_lt rom_data address (by omega)]
      simp only []
      rw [to_u16_succ address (by omega), ih (address + 1) _ (by omega) (by omega), hn,
        List.range'_succ, List.foldl_cons]
    · have h3 : address = 0x14D := by omega
      subst h3
      simp

theorem mask_step (acc16 acc8 : Nat) (b : u8) (h : acc16 % 256 = acc8) :
    to_u16 ((acc16 : Int) - (b.val : Int) - 1) % 256 =
      (((acc8 : Int) - (b.val : Int) - 1) % 256).toNat := by
  unfold to_u16
  omega

theorem mask_foldl (buffer : List u8) (offsets : List Nat) :
    ∀ (acc16 acc8 : Nat), acc16 % 256 = acc8 →
      (offsets.foldl
        (fun (acc : Nat) (a : Nat) => to_u16 ((acc : Int) - ((buffer.getD a 0).val : Int) - 1)) acc16) % 256 =
      offsets.foldl
        (fun (accumulator : Nat) (offset : Nat) =>
          (((accumulator : Int) - ((buffer.getD offset 0).val : Int) - 1) % 256).toNat) acc8 := by
  induction offsets with
  | nil => intro acc16 acc8 h; simpa using h
  | cons a rest ih =>
    intro acc16 acc8 h
    rw [List.foldl_cons, List.foldl_cons]
    exact ih _ _ (mask_step acc16 acc8 (buffer.getD a 0) h)

theorem calculated_checksum_eq (rom_data : List u8) (hlen : 0x14D ≤ rom_data.length) :
    calculated_checksum rom_data = some (validate_computed rom_data) := by
  unfold calculated_checksum
  rw [checksum_loop_eq rom_data hlen 0x10000 0x0134 0 (by norm_num) (by norm_num)]
  simp only []
  have hmask : ∀ x : Nat, x &&& 0xFF = x % 256 := fun x =>
    Nat.and_pow_two_sub_one_eq_mod x 8
  rw [hmask]
  exact congrArg some (mask_foldl rom_data _ 0 0 rfl)

/-! ## `load_cart` on a file that holds the whole header -/

theorem header_u8_after_store (name contents : List u8) (n off : Nat)
    (hoff : off ≠ 0x43) (hlt : 0x100 + off < contents.length) :
    header_u8 { filename := name, rom_size := n, rom_data := contents.set 0x143 0,
                header := some 0x100 } off = some (contents.getD (0x100 + off) 0) := by
  show (contents.set 0x143 0)[0x100 + off]? = _
  rw [List.getElem?_set_ne (by omega), getElem?_of_lt contents _ hlt]

theorem header_u16_after_store (name contents : List u8) (n off : Nat)
    (hoff : off ≠ 0x43) (hoff2 : off ≠ 0x42) (hlt : 0x100 + off + 1 < contents.length) :
    header_u16 { filename := name, rom_size := n, rom_data := contents.set 0x143 0,
                 header := some 0x100 } off =
      some ((contents.getD (0x100 + off) 0).val + 256 * (contents.getD (0x100 + off + 1) 0).val) := by
  unfold header_u16
  rw [header_u8_after_store name contents n off hoff (by omega),
    header_u8_after_store name contents n (off + 1) (by omega) (by omega)]
  rfl

theorem c_string_at_title (contents : List u8) (hlt : 0x143 < contents.length) :
    c_string_at (contents.set 0x143 0) 0x134 =
      some (((contents.set 0x143 0).drop 0x134).takeWhile (fun b => b ≠ 0)) := by
  unfold c_string_at
  have h15 : ((contents.set 0x143 0).drop 0x134)[15]? = some 0 := by
    rw [List.getElem?_drop]
    exact List.getElem?_set_self hlt
  rw [if_pos (List.getElem?_mem h15)]

theorem getElem?_of_lt_c_str (table : List c_str) (i : Nat) (h : i < table.length) :
    table[i]? = some (table.getD i none) := by
  simp [List.getElem?_eq_getElem h]

theorem LICENSEE_CODE_length : LICENSEE_CODE.length = 0xA5 := by
  simp [LICENSEE_CODE, designated]

theorem load_cart_eq (ctx : cart_context) (cart_filename contents : List u8)
    (hlo : 0x14E ≤ contents.length) (hhi : contents.length < 2 ^ 32)
    (htype : (contents.getD 0x147 0).val < 0x23)
    (hrom : (contents.getD 0x148 0).val ≤ 25)
    (hram : (contents.getD 0x149 0).val ≤ 5)
    (hlic : (contents.getD 0x144 0).val + 256 * (contents.getD 0x145 0).val ≠ 0xA5) :
    load_cart ctx cart_filename (some contents) = some {
      ctx := {
        filename := cart_filename.take 1023
        rom_size := contents.length
        rom_data := contents.set 0x143 0
        header := some 0x100 }
      printed := some {
        title := ((contents.set 0x143 0).drop 0x134).takeWhile (fun b => b ≠ 0)
        cartridge_type := contents.getD 0x147 0
        cartridge_type_name := CARTRIDGE_TYPES[(contents.getD 0x147 0).val]?
        rom_size_kib := 32 * 2 ^ (contents.getD 0x148 0).val
        ram_size_kib := ([0, 0, 8, 32, 128, 64] : List Int).getD (contents.getD 0x149 0).val 0
        licensee_code := (contents.getD 0x144 0).val + 256 * (contents.getD 0x145 0).val
        licensee :=
          if (contents.getD 0x144 0).val + 256 * (contents.getD 0x145 0).val ≤ 0xA5 then
            LICENSEE_CODE.getD ((contents.getD 0x144 0).val + 256 * (contents.getD 0x145 0).val) none
          else some "UNKNOWN"
        rom_vers := contents.getD 0x14C 0
        header_checksum := contents.getD 0x14D 0
        passed := validate_passed (contents.set 0x143 0) }
      ret := validate_passed (contents.set 0x143 0) } := by
  have hmod : contents.length % 2 ^ 32 = contents.length := Nat.mod_eq_of_lt hhi
  have hu8 := header_u8_after_store (cart_filename.take 1023) contents contents.length
  have h44 := hu8 0x44 (by norm_num) (by omega)
  have h45 := hu8 0x45 (by norm_num) (by omega)
  have h47 := hu8 0x47 (by norm_num) (by omega)
  have h48 := hu8 0x48 (by norm_num) (by omega)
  have h49 := hu8 0x49 (by norm_num) (by omega)
  have h4C := hu8 0x4C (by norm_num) (by omega)
  have h4D := hu8 0x4D (by norm_num) (by omega)
  have h16 := header_u16_after_store (cart_filename.take 1023) contents contents.length 0x44
    (by norm_num) (by norm_num) (by omega)
  simp only [Nat.reduceAdd] at h44 h45 h47 h48 h49 h4C h4D h16
  have htn := get_cartridge_type_of_code _ _ h47
  rw [List.getElem?_eq_getElem (show (contents.getD 0x147 0).val < CARTRIDGE_TYPES.length from htype),
    Option.map_some'] at htn
  have hromv := get_rom_size_small _ _ h48 hrom
  have hramv := get_ram_size_of_code _ _ h49
  rw [List.getElem?_eq_getElem (show (contents.getD 0x149 0).val <
    ([0, 0, 8, 32, 128, 64] : List Int).length from Nat.lt_succ_of_le hram)] at hramv
  have hlicv := get_licensee_of_code _ _ h16
  have hlicv2 : (if (contents.getD 0x144 0).val + 256 * (contents.getD 0x145 0).val ≤ 0xA5 then
        LICENSEE_CODE[(contents.getD 0x144 0).val + 256 * (contents.getD 0x145 0).val]?
      else some (some "UNKNOWN")) =
      some (if (contents.getD 0x144 0).val + 256 * (contents.getD 0x145 0).val ≤ 0xA5 then
        LICENSEE_CODE.getD ((contents.getD 0x144 0).val + 256 * (contents.getD 0x145 0).val) none
      else some "UNKNOWN") := by
    by_cases hle : (contents.getD 0x144 0).val + 256 * (contents.getD 0x145 0).val ≤ 0xA5
    · rw [if_pos hle, if_pos hle, getElem?_of_lt_c_str LICENSEE_CODE _
        (by rw [LICENSEE_CODE_length]; omega)]
    · rw [if_neg hle, if_neg hle]
  rw [hlicv2] at hlicv
  have hget : (contents.set 0x143 0).getD 0x14D 0 = contents.getD 0x14D 0 := by
    rw [List.getD_eq_getElem?_getD, List.getD_eq_getElem?_getD, List.getElem?_set_ne (by norm_num)]
  have htn2 : CARTRIDGE_TYPES[(contents.getD 0x147 0).val]? =
      some (CARTRIDGE_TYPES.get ⟨(contents.getD 0x147 0).val, htype⟩) :=
    List.getElem?_eq_getElem _
  have hramv2 : ([0, 0, 8, 32, 128, 64] : List Int).getD (contents.getD 0x149 0).val 0 =
      ([0, 0, 8, 32, 128, 64] : List Int).get ⟨(contents.getD 0x149 0).val,
        Nat.lt_succ_of_le hram⟩ :=
    List.getD_eq_getElem _ _ _
  have hcalc := calculated_checksum_eq (contents.set 0x143 0) (by rw [List.length_set]; omega)
  have htitle := c_string_at_title contents (by omega)
  simp only [load_cart, hmod, List.take_length, header_store_u8, off_title, off_logo,
    off_entry_point]
  rw [if_pos (by omega)]
  simp only [Option.bind_eq_bind, Option.some_bind, Nat.reduceAdd, off_cartridge_type,
    off_sgb_flag, off_licensee_code, off_title, off_logo, off_entry_point,
    off_mask_rom_version_number, off_old_licensee_code, off_destination_code, off_ram_size,
    off_rom_size, off_header_checksum]
  rw [htitle, h47, htn, hromv, hramv, h16, hlicv, h4C, hcalc, h4D]
  simp only [Option.some_bind, validate_passed, hget, htn2, hramv2]
  rfl

/-! ## `load_cart` -/

/-- C1, at the file `image_cgb`: the checksum of the file's bytes at
0x134..0x14C is 0x67 and equals its byte at 0x14D, so the documented algorithm
passes; `load_cart` has stored 0 at offset 0x143 before its loop runs, computes
0xE7 and returns false. -/
theorem load_cart_checksum_reads_stored_zero :
    image_cgb.length = 0x150 ∧
    validate_computed image_cgb = 0x67 ∧
    image_cgb[0x14D]? = some 0x67 ∧
    validate_passed image_cgb = true ∧
    (load_cart ctx_init rom_gb (some image_cgb)).bind
      (fun o => calculated_checksum o.ctx.rom_data) = some 0xE7 ∧
    (load_cart ctx_init rom_gb (some image_cgb)).map (fun o => o.ret) = some false := by
  decide

/-- C2 as stated fails at the file `image_short` of 0x14E bytes: `load_cart`
reads the header, its checksum byte 0xE7 included, and returns true. -/
theorem load_cart_short_image_passes :
    image_short.length < 0x150 ∧
    (load_cart ctx_init rom_gb (some image_short)).map
      (fun o => (o.printed.map (fun r => r.header_checksum), o.ret)) =
      some (some 0xE7, true) := by
  decide

/-- C2, amended: `load_cart` makes no length check.  For every file of 0x14E
or 0x14F bytes whose cartridge type, ROM size, RAM size and licensee codes are
ones the accessors are defined for, `load_cart` reads the header fields and the
checksum byte from the file and returns the outcome of the checksum: true
exactly when the value it computes equals the byte at 0x14D. -/
theorem load_cart_no_length_check (ctx : cart_context) (cart_filename contents : List u8)
    (hlo : 0x14E ≤ contents.length) (hhi : contents.length < 0x150)
    (htype : (contents.getD 0x147 0).val < 0x23)
    (hrom : (contents.getD 0x148 0).val ≤ 25)
    (hram : (contents.getD 0x149 0).val ≤ 5)
    (hlic : (contents.getD 0x144 0).val + 256 * (contents.getD 0x145 0).val ≠ 0xA5) :
    ∃ o report calculated,
      load_cart ctx cart_filename (some contents) = some o ∧
      o.printed = some report ∧
      report.licensee_code = (contents.getD 0x144 0).val + 256 * (contents.getD 0x145 0).val ∧
      report.cartridge_type = contents.getD 0x147 0 ∧
      report.rom_size_kib = 32 * 2 ^ (contents.getD 0x148 0).val ∧
      report.rom_vers = contents.getD 0x14C 0 ∧
      report.header_checksum = contents.getD 0x14D 0 ∧
      calculated_checksum o.ctx.rom_data = some calculated ∧
      o.ret = decide (calculated = (contents.getD 0x14D 0).val) := by
  have h := load_cart_eq ctx cart_filename contents hlo (by omega) htype hrom hram hlic
  have hcalc := calculated_checksum_eq (contents.set 0x143 0) (by rw [List.length_set]; omega)
  have hget : (contents.set 0x143 0).getD 0x14D 0 = contents.getD 0x14D 0 := by
    rw [List.getD_eq_getElem?_getD, List.getD_eq_getElem?_getD,
      List.getElem?_set_ne (by norm_num)]
  refine ⟨_, _, _, h, rfl, rfl, rfl, rfl, rfl, rfl, hcalc, ?_⟩
  simp only [validate_passed, hget]

/-- The amended C2 at the file `image_short`. -/
theorem load_cart_no_length_check_witness :
    (0x14E ≤ image_short.length ∧ image_short.length < 0x150) ∧
    ∃ o report calculated,
      load_cart ctx_init rom_gb (some image_short) = some o ∧
      o.printed = some report ∧
      report.licensee_code = (image_short.getD 0x144 0).val + 256 * (image_short.getD 0x145 0).val ∧
      report.cartridge_type = image_short.getD 0x147 0 ∧
      report.rom_size_kib = 32 * 2 ^ (image_short.getD 0x148 0).val ∧
      report.rom_vers = image_short.getD 0x14C 0 ∧
      report.header_checksum = image_short.getD 0x14D 0 ∧
      calculated_checksum o.ctx.rom_data = some calculated ∧
      o.ret = decide (calculated = (image_short.getD 0x14D 0).val) :=
  ⟨by decide,
   load_cart_no_length_check ctx_init rom_gb image_short (by decide) (by decide) (by decide)
     (by decide) (by decide) (by decide)⟩

end Cart

namespace Cart

set_option maxRecDepth 100000

/-! ## The licensee table -/

/-- C11: for every licensee code in 0x00..0xA4 that has an entry in
`LICENSEE_CODE`, `get_licensee` returns exactly that entry: "None" for 0x00,
"Nintendo" for 0x31 and "Konami (Yu-Gi-Oh!)" for the highest code 0xA4. -/
theorem get_licensee_table_entry (ctx : cart_context) (code : Nat) (name : String)
    (hcode : header_u16 ctx off_licensee_code = some code) (hle : code ≤ 0xA4)
    (hentry : LICENSEE_CODE[code]? = some (some name)) :
    get_licensee ctx = some (some name) ∧
    (code = 0x00 → name = "None") ∧
    (code = 0x31 → name = "Nintendo") ∧
    (code = 0xA4 → name = "Konami (Yu-Gi-Oh!)") := by
  have h := get_licensee_of_code ctx code hcode
  rw [if_pos (by omega), hentry] at h
  have h00 : LICENSEE_CODE[0x00]? = some (some "None") := by decide
  have h31 : LICENSEE_CODE[0x31]? = some (some "Nintendo") := by decide
  have hA4 : LICENSEE_CODE[0xA4]? = some (some "Konami (Yu-Gi-Oh!)") := by decide
  refine ⟨h, ?_, ?_, ?_⟩
  · intro hc
    rw [hc, h00] at hentry
    exact (Option.some.inj (Option.some.inj hentry)).symm
  · intro hc
    rw [hc, h31] at hentry
    exact (Option.some.inj (Option.some.inj hentry)).symm
  · intro hc
    rw [hc, hA4] at hentry
    exact (Option.some.inj (Option.some.inj hentry)).symm

/-- C11 at the licensee code 0x31. -/
theorem get_licensee_table_entry_witness :
    header_u16 (ctx_of image_nintendo) off_licensee_code = some 0x31 ∧
    LICENSEE_CODE[0x31]? = some (some "Nintendo") ∧
    get_licensee (ctx_of image_nintendo) = some (some "Nintendo") :=
  ⟨by decide, by decide,
   (get_licensee_table_entry (ctx_of image_nintendo) 0x31 "Nintendo" (by decide) (by decide)
      (by decide)).1⟩

/-! ## The title field and the header after a load -/

theorem title_field_after_store (contents : List u8) :
    ((contents.set 0x143 0).drop 0x134).take 16 = ((contents.drop 0x134).take 16).set 15 0 := by
  rw [← List.set_take, List.set_drop]

theorem takeWhile_take_of_stop (p : u8 → Bool) :
    ∀ (n : Nat) (l : List u8) (x : u8), l[n]? = some x → p x = false →
      l.takeWhile p = (l.take (n + 1)).takeWhile p := by
  intro n
  induction n with
  | zero =>
    intro l x hx hp
    cases l with
    | nil => simp at hx
    | cons a rest =>
      simp only [List.getElem?_cons_zero, Option.some.injEq] at hx
      subst hx
      simp [List.takeWhile_cons, hp]
  | succ n ih =>
    intro l x hx hp
    cases l with
    | nil => simp at hx
    | cons a rest =>
      simp only [List.getElem?_cons_succ] at hx
      simp only [List.take_succ_cons, List.takeWhile_cons]
      rw [ih rest x hx hp]

theorem length_takeWhile_le_of_stop (p : u8 → Bool) :
    ∀ (n : Nat) (l : List u8) (x : u8), l[n]? = some x → p x = false →
      (l.takeWhile p).length ≤ n := by
  intro n
  induction n with
  | zero =>
    intro l x hx hp
    cases l with
    | nil => simp at hx
    | cons a rest =>
      simp only [List.getElem?_cons_zero, Option.some.injEq] at hx
      subst hx
      simp [List.takeWhile_cons, hp]
  | succ n ih =>
    intro l x hx hp
    cases l with
    | nil => simp at hx
    | cons a rest =>
      simp only [List.getElem?_cons_succ] at hx
      rw [List.takeWhile_cons]
      split
      · simpa using ih rest x hx hp
      · simp

theorem title_after_store (contents : List u8) (hlt : 0x143 < contents.length) :
    ((contents.set 0x143 0).drop 0x134).takeWhile (fun b => b ≠ 0) =
      (((contents.drop 0x134).take 16).set 15 0).takeWhile (fun b => b ≠ 0) ∧
    (((contents.set 0x143 0).drop 0x134).takeWhile (fun b => b ≠ 0)).length ≤ 15 := by
  have h15 : ((contents.set 0x143 0).drop 0x134)[15]? = some 0 := by
    rw [List.getElem?_drop]
    exact List.getElem?_set_self hlt
  refine ⟨?_, length_takeWhile_le_of_stop _ 15 _ 0 h15 (by decide)⟩
  rw [takeWhile_take_of_stop _ 15 _ 0 h15 (by decide), title_field_after_store]

theorem header_bytes_after_store (name contents : List u8) (n off len : Nat)
    (hlt : 0x100 + off + len ≤ contents.length) :
    header_bytes { filename := name, rom_size := n, rom_data := contents.set 0x143 0,
                   header := some 0x100 } off len =
      some (((contents.set 0x143 0).drop (0x100 + off)).take len) := by
  unfold header_bytes
  simp only [List.length_set]
  rw [if_pos hlt]

theorem read_header_after_store (name contents : List u8) (n : Nat)
    (hlen : 0x150 ≤ contents.length) :
    read_header { filename := name, rom_size := n, rom_data := contents.set 0x143 0,
                  header := some 0x100 } = some {
      entry_point := ((contents.set 0x143 0).drop 0x100).take 4
      logo := ((contents.set 0x143 0).drop 0x104).take 0x30
      title := ((contents.drop 0x134).take 16).set 15 0
      licensee_code := (contents.getD 0x144 0).val + 256 * (contents.getD 0x145 0).val
      sgb_flag := contents.getD 0x146 0
      cartridge_type := contents.getD 0x147 0
      rom_size := contents.getD 0x148 0
      ram_size := contents.getD 0x149 0
      destination_code := contents.getD 0x14A 0
      old_licensee_code := contents.getD 0x14B 0
      mask_rom_version_number := contents.getD 0x14C 0
      header_checksum := contents.getD 0x14D 0
      global_checksum := (contents.getD 0x14E 0).val + 256 * (contents.getD 0x14F 0).val } := by
  have hb := header_bytes_after_store name contents n
  have hu8 := header_u8_after_store name contents n
  have hu16 := header_u16_after_store name contents n
  have e1 := hb 0 4 (by omega)
  have e2 := hb 4 0x30 (by omega)
  have e3 := hb 0x34 16 (by omega)
  have e4 := hu16 0x44 (by norm_num) (by norm_num) (by omega)
  have e5 := hu8 0x46 (by norm_num) (by omega)
  have e6 := hu8 0x47 (by norm_num) (by omega)
  have e7 := hu8 0x48 (by norm_num) (by omega)
  have e8 := hu8 0x49 (by norm_num) (by omega)
  have e9 := hu8 0x4A (by norm_num) (by omega)
  have e10 := hu8 0x4B (by norm_num) (by omega)
  have e11 := hu8 0x4C (by norm_num) (by omega)
  have e12 := hu8 0x4D (by norm_num) (by omega)
  have e13 := hu16 0x4E (by norm_num) (by norm_num) (by omega)
  simp only [Nat.reduceAdd] at e1 e2 e3 e4 e5 e6 e7 e8 e9 e10 e11 e12 e13
  rw [title_field_after_store] at e3
  simp only [read_header, Nat.reduceAdd, off_cartridge_type, off_sgb_flag, off_licensee_code,
    off_title, off_logo, off_entry_point, off_mask_rom_version_number, off_old_licensee_code,
    off_destination_code, off_ram_size, off_rom_size, off_header_checksum, off_global_checksum,
    Option.bind_eq_bind]
  rw [e1, e2, e3, e4, e5, e6, e7, e8, e9, e10, e11, e12, e13]
  rfl

theorem load_cart_some_inv (ctx : cart_context) (cart_filename contents : List u8)
    (o : load_outcome) (hhi : contents.length < 2 ^ 32)
    (h : load_cart ctx cart_filename (some contents) = some o) :
    0x14E ≤ contents.length ∧
    o.ctx.rom_data = contents.set 0x143 0 ∧
    ∃ report calculated,
      o.printed = some report ∧
      c_string_at (contents.set 0x143 0) 0x134 = some report.title ∧
      calculated_checksum (contents.set 0x143 0) = some calculated ∧
      o.ret = decide (calculated = (contents.getD 0x14D 0).val) := by
  have hmod : contents.length % 2 ^ 32 = contents.length := Nat.mod_eq_of_lt hhi
  simp only [load_cart, hmod, List.take_length, header_store_u8, off_title, off_logo,
    off_entry_point, Nat.reduceAdd] at h
  by_cases hlt : 323 < contents.length
  · rw [if_pos hlt] at h
    simp only [Option.bind_eq_bind, Option.some_bind, Option.bind_eq_some,
      Option.some.injEq] at h
    obtain ⟨title, htitle, ct, hct, ctn, hctn, rk, hrk, mk, hmk, lc, hlc, ln, hln, rv, hrv,
      c, hc, hck, hhck, rfl⟩ := h
    have hraw : (contents.set 0x143 0)[0x100 + off_header_checksum]? = some hck := hhck
    have hlen : 0x14E ≤ contents.length := by
      by_contra hcon
      have hnone : (contents.set 0x143 0)[0x100 + off_header_checksum]? = none := by
        apply List.getElem?_eq_none
        rw [List.length_set]
        simp only [off_header_checksum, off_mask_rom_version_number, off_old_licensee_code,
          off_destination_code, off_ram_size, off_rom_size, off_cartridge_type, off_sgb_flag,
          off_licensee_code, off_title, off_logo, off_entry_point]
        omega
      rw [hnone] at hraw
      exact Option.noConfusion hraw
    have hck2 := header_u8_after_store (List.take 1023 cart_filename) contents contents.length
      0x4D (by norm_num) (by omega)
    have hoff : off_header_checksum = 0x4D := rfl
    rw [hoff, hck2] at hhck
    have hcke : contents.getD 0x14D 0 = hck := Option.some.inj hhck
    refine ⟨hlen, rfl, _, c, rfl, htitle, hc, ?_⟩
    rw [← hcke]
  · rw [if_neg hlt] at h
    simp only [Option.bind_eq_bind, Option.none_bind] at h
    exact Option.noConfusion h

/-- C12 as stated fails at the file `image_cgb` of 0x150 bytes: the title of
the header `load_cart` derives ends in 0, not in the file's byte 0x80 at
0x143, and `load_cart` returns false although the checksum of the file's
original bytes equals the byte at 0x14D. -/
theorem load_cart_header_title_end_differs :
    image_cgb.length = 0x150 ∧
    (load_cart ctx_init rom_gb (some image_cgb)).bind
      (fun o => (read_header o.ctx).map (fun header => header.title)) =
      some [0, 0, 0, 0, 0, 0, 0, 0, 0, 0, 0, 0, 0, 0, 0, 0] ∧
    (image_cgb.drop 0x134).take 16 = [0, 0, 0, 0, 0, 0, 0, 0, 0, 0, 0, 0, 0, 0, 0, 0x80] ∧
    (load_cart ctx_init rom_gb (some image_cgb)).map (fun o => o.ret) = some false ∧
    validate_passed image_cgb = true := by
  decide

/-- C12, amended: for every file of exactly 0x150 bytes whose cartridge type,
ROM size, RAM size and licensee codes are ones the accessors are defined for,
the header `load_cart` derives has every member equal to the file's bytes at
the documented offset, but for the last title byte, which is 0: the title is
the 16 bytes at 0x134..0x143 with the last replaced by 0.  When the file's
byte at 0x143 is 0, the title is the 16 original bytes and the value returned
is the outcome of the checksum of the original bytes. -/
theorem load_cart_header_fields (ctx : cart_context) (cart_filename contents : List u8)
    (hlen : contents.length = 0x150)
    (htype : (contents.getD 0x147 0).val < 0x23)
    (hrom : (contents.getD 0x148 0).val ≤ 25)
    (hram : (contents.getD 0x149 0).val ≤ 5)
    (hlic : (contents.getD 0x144 0).val + 256 * (contents.getD 0x145 0).val ≠ 0xA5) :
    ∃ o header,
      load_cart ctx cart_filename (some contents) = some o ∧
      read_header o.ctx = some header ∧
      header.title = ((contents.drop 0x134).take 16).set 15 0 ∧
      header.licensee_code = (contents.getD 0x144 0).val + 256 * (contents.getD 0x145 0).val ∧
      header.sgb_flag = contents.getD 0x146 0 ∧
      header.cartridge_type = contents.getD 0x147 0 ∧
      header.rom_size = contents.getD 0x148 0 ∧
      header.ram_size = contents.getD 0x149 0 ∧
      header.destination_code = contents.getD 0x14A 0 ∧
      header.old_licensee_code = contents.getD 0x14B 0 ∧
      header.mask_rom_version_number = contents.getD 0x14C 0 ∧
      header.header_checksum = contents.getD 0x14D 0 ∧
      (contents.getD 0x143 0 = 0 →
        header.title = (contents.drop 0x134).take 16 ∧ o.ret = validate_passed contents) := by
  have h := load_cart_eq ctx cart_filename contents (by omega) (by omega) htype hrom hram hlic
  have hread := read_header_after_store (cart_filename.take 1023) contents contents.length
    (by omega)
  refine ⟨_, _, h, hread, rfl, rfl, rfl, rfl, rfl, rfl, rfl, rfl, rfl, rfl, ?_⟩
  intro h0
  have hset : contents.set 0x143 0 = contents := by
    apply List.ext_getElem?
    intro i
    by_cases hi : 0x143 = i
    · subst hi
      rw [List.getElem?_set_self (by omega), getElem?_of_lt contents 0x143 (by omega), h0]
    · rw [List.getElem?_set_ne hi]
  constructor
  · show ((contents.drop 0x134).take 16).set 15 0 = (contents.drop 0x134).take 16
    rw [← title_field_after_store, hset]
  · show validate_passed (contents.set 0x143 0) = validate_passed contents
    rw [hset]

/-- The amended C12 at the file `image_zero`. -/
theorem load_cart_header_fields_witness :
    image_zero.length = 0x150 ∧
    ∃ o header,
      load_cart ctx_init rom_gb (some image_zero) = some o ∧
      read_header o.ctx = some header ∧
      header.title = ((image_zero.drop 0x134).take 16).set 15 0 ∧
      header.licensee_code =
        (image_zero.getD 0x144 0).val + 256 * (image_zero.getD 0x145 0).val ∧
      header.sgb_flag = image_zero.getD 0x146 0 ∧
      header.cartridge_type = image_zero.getD 0x147 0 ∧
      header.rom_size = image_zero.getD 0x148 0 ∧
      header.ram_size = image_zero.getD 0x149 0 ∧
      header.destination_code = image_zero.getD 0x14A 0 ∧
      header.old_licensee_code = image_zero.getD 0x14B 0 ∧
      header.mask_rom_version_number = image_zero.getD 0x14C 0 ∧
      header.header_checksum = image_zero.getD 0x14D 0 ∧
      (image_zero.getD 0x143 0 = 0 →
        header.title = (image_zero.drop 0x134).take 16 ∧ o.ret = validate_passed image_zero) :=
  ⟨by decide,
   load_cart_header_fields ctx_init rom_gb image_zero (by decide) (by decide) (by decide)
     (by decide) (by decide)⟩

/-- C13 as stated fails at the file `image_cgb`: after `load_cart` the image
holds 0 at offset 0x143, where the file holds 0x80. -/
theorem load_cart_image_differs_at_0x143 :
    (load_cart ctx_init rom_gb (some image_cgb)).map (fun o => o.ctx.rom_data[0x143]?) =
      some (some 0) ∧
    image_cgb[0x143]? = some 0x80 := by
  decide

/-- C13, amended: for every file `load_cart` loads (at least 0x14E bytes,
the codes in the domain of the accessors), after `load_cart` the image has the
length of the file, every byte of it but the one at offset 0x143 equals the
corresponding byte of the file, and the byte at 0x143 is 0. -/
theorem load_cart_image_frame (ctx : cart_context) (cart_filename contents : List u8)
    (hlo : 0x14E ≤ contents.length) (hhi : contents.length < 2 ^ 32)
    (htype : (contents.getD 0x147 0).val < 0x23)
    (hrom : (contents.getD 0x148 0).val ≤ 25)
    (hram : (contents.getD 0x149 0).val ≤ 5)
    (hlic : (contents.getD 0x144 0).val + 256 * (contents.getD 0x145 0).val ≠ 0xA5) :
    ∃ o,
      load_cart ctx cart_filename (some contents) = some o ∧
      o.ctx.rom_data.length = contents.length ∧
      (∀ i, i ≠ 0x143 → o.ctx.rom_data[i]? = contents[i]?) ∧
      o.ctx.rom_data[0x143]? = some 0 := by
  have h := load_cart_eq ctx cart_filename contents hlo hhi htype hrom hram hlic
  refine ⟨_, h, ?_, ?_, ?_⟩
  · show (contents.set 0x143 0).length = contents.length
    rw [List.length_set]
  · intro i hi
    show (contents.set 0x143 0)[i]? = contents[i]?
    rw [List.getElem?_set_ne (fun hc => hi hc.symm)]
  · show (contents.set 0x143 0)[0x143]? = some 0
    exact List.getElem?_set_self (by omega)

/-- The amended C13 at the file `image_cgb`. -/
theorem load_cart_image_frame_witness :
    (0x14E ≤ image_cgb.length ∧ image_cgb.length < 2 ^ 32) ∧
    ∃ o,
      load_cart ctx_init rom_gb (some image_cgb) = some o ∧
      o.ctx.rom_data.length = image_cgb.length ∧
      (∀ i, i ≠ 0x143 → o.ctx.rom_data[i]? = image_cgb[i]?) ∧
      o.ctx.rom_data[0x143]? = some 0 :=
  ⟨by decide,
   load_cart_image_frame ctx_init rom_gb image_cgb (by decide) (by decide) (by decide)
     (by decide) (by decide) (by decide)⟩

/-- C14: for every title field, the title `load_cart` decodes once it has
forced byte 15 of the field to 0 is exactly the bytes of that field before its
first zero byte; it holds no zero byte and at most 15 bytes. -/
theorem load_cart_title_decoded (ctx : cart_context) (cart_filename contents : List u8)
    (hlo : 0x14E ≤ contents.length) (hhi : contents.length < 2 ^ 32)
    (htype : (contents.getD 0x147 0).val < 0x23)
    (hrom : (contents.getD 0x148 0).val ≤ 25)
    (hram : (contents.getD 0x149 0).val ≤ 5)
    (hlic : (contents.getD 0x144 0).val + 256 * (contents.getD 0x145 0).val ≠ 0xA5) :
    ∃ o report,
      load_cart ctx cart_filename (some contents) = some o ∧
      o.printed = some report ∧
      report.title =
        (((contents.drop 0x134).take 16).set 15 0).takeWhile (fun b => b ≠ 0) ∧
      (0 : u8) ∉ report.title ∧
      report.title.length ≤ 15 := by
  have h := load_cart_eq ctx cart_filename contents hlo hhi htype hrom hram hlic
  have ht := title_after_store contents (by omega)
  refine ⟨_, _, h, rfl, ht.1, ?_, ht.2⟩
  intro hmem
  have hp := List.mem_takeWhile_imp hmem
  simp at hp

/-- C14 at the file `image_pokemon`. -/
theorem load_cart_title_decoded_witness :
    (0x14E ≤ image_pokemon.length ∧ image_pokemon.length < 2 ^ 32) ∧
    ∃ o report,
      load_cart ctx_init rom_gb (some image_pokemon) = some o ∧
      o.printed = some report ∧
      report.title =
        (((image_pokemon.drop 0x134).take 16).set 15 0).takeWhile (fun b => b ≠ 0) ∧
      (0 : u8) ∉ report.title ∧
      report.title.length ≤ 15 :=
  ⟨by decide,
   load_cart_title_decoded ctx_init rom_gb image_pokemon (by decide) (by decide) (by decide)
     (by decide) (by decide) (by decide)⟩

/-- C15 as stated fails at the file `image_pokemon`, whose title field is
`POKEMON BLUE` followed by four spaces: the decoded title is the 15 bytes
`POKEMON BLUE` and three spaces, not the 12 bytes `POKEMON BLUE`. -/
theorem load_cart_title_keeps_padding :
    (image_pokemon.drop 0x134).take 16 = pokemon_blue ++ [0x20, 0x20, 0x20, 0x20] ∧
    (load_cart ctx_init rom_gb (some image_pokemon)).map
      (fun o => o.printed.map (fun report => report.title)) =
      some (some (pokemon_blue ++ [0x20, 0x20, 0x20])) ∧
    pokemon_blue ++ [0x20, 0x20, 0x20] ≠ pokemon_blue := by
  decide

/-- C15, amended: for every title field that starts with the 12 bytes
`POKEMON BLUE`, followed by the padding bytes `p0 p1 p2 p3`: when the padding
bytes are not zero the decoded title is `POKEMON BLUE` followed by `p0 p1 p2`
(15 bytes, the forced zero ends it); when the first padding byte is zero the
decoded title is exactly `POKEMON BLUE`. -/
theorem load_cart_title_pokemon_blue (ctx : cart_context) (cart_filename contents : List u8)
    (p0 p1 p2 p3 : u8)
    (hfield : (contents.drop 0x134).take 16 = pokemon_blue ++ [p0, p1, p2, p3])
    (hlo : 0x14E ≤ contents.length) (hhi : contents.length < 2 ^ 32)
    (htype : (contents.getD 0x147 0).val < 0x23)
    (hrom : (contents.getD 0x148 0).val ≤ 25)
    (hram : (contents.getD 0x149 0).val ≤ 5)
    (hlic : (contents.getD 0x144 0).val + 256 * (contents.getD 0x145 0).val ≠ 0xA5) :
    ∃ o report,
      load_cart ctx cart_filename (some contents) = some o ∧
      o.printed = some report ∧
      (p0 ≠ 0 → p1 ≠ 0 → p2 ≠ 0 → report.title = pokemon_blue ++ [p0, p1, p2]) ∧
      (p0 = 0 → report.title = pokemon_blue) := by
  have h := load_cart_eq ctx cart_filename contents hlo hhi htype hrom hram hlic
  have ht := (title_after_store contents (by omega)).1
  rw [hfield] at ht
  refine ⟨_, _, h, rfl, ?_, ?_⟩
  · intro h0 h1 h2
    show ((contents.set 0x143 0).drop 0x134).takeWhile (fun b => b ≠ 0) = _
    rw [ht]
    simp [pokemon_blue, List.takeWhile_cons, h0, h1, h2]
  · intro h0
    show ((contents.set 0x143 0).drop 0x134).takeWhile (fun b => b ≠ 0) = _
    rw [ht]
    simp [pokemon_blue, List.takeWhile_cons, h0]

/-- The amended C15 at the file `image_pokemon`. -/
theorem load_cart_title_pokemon_blue_witness :
    ((image_pokemon.drop 0x134).take 16 = pokemon_blue ++ [0x20, 0x20, 0x20, 0x20] ∧
      0x14E ≤ image_pokemon.length ∧ image_pokemon.length < 2 ^ 32) ∧
    ∃ o report,
      load_cart ctx_init rom_gb (some image_pokemon) = some o ∧
      o.printed = some report ∧
      ((0x20 : u8) ≠ 0 → (0x20 : u8) ≠ 0 → (0x20 : u8) ≠ 0 →
        report.title = pokemon_blue ++ [0x20, 0x20, 0x20]) ∧
      ((0x20 : u8) = 0 → report.title = pokemon_blue) :=
  ⟨by decide,
   load_cart_title_pokemon_blue ctx_init rom_gb image_pokemon 0x20 0x20 0x20 0x20 (by decide)
     (by decide) (by decide) (by decide) (by decide) (by decide) (by decide)⟩

/-- C16 as stated fails at the file `image_zero`, whose computed checksum 0xE7
differs from its byte 0x00 at 0x14D: `load_cart` returns false, the value it
returns when the file cannot be opened. -/
theorem load_cart_mismatch_returns_as_open_failure :
    image_zero.length = 0x150 ∧
    calculated_checksum (image_zero.set 0x143 0) = some 0xE7 ∧
    image_zero[0x14D]? = some 0x00 ∧
    (load_cart ctx_init rom_gb (some image_zero)).map (fun o => o.ret) = some false ∧
    (load_cart ctx_init rom_gb none).map (fun o => o.ret) = some false := by
  decide

/-- C16, amended: for every file of at least 0x150 bytes that `load_cart`
loads and whose computed checksum differs from the byte at 0x14D, `load_cart`
returns false, the same value as when the file cannot be opened; the two
cases differ in what is printed (the report, with the outcome failed, against
no report) but not in the value returned. -/
theorem load_cart_mismatch_vs_open_failure (ctx : cart_context)
    (cart_filename contents : List u8)
    (hlo : 0x150 ≤ contents.length) (hhi : contents.length < 2 ^ 32)
    (htype : (contents.getD 0x147 0).val < 0x23)
    (hrom : (contents.getD 0x148 0).val ≤ 25)
    (hram : (contents.getD 0x149 0).val ≤ 5)
    (hlic : (contents.getD 0x144 0).val + 256 * (contents.getD 0x145 0).val ≠ 0xA5)
    (hmis : calculated_checksum (contents.set 0x143 0) ≠ some (contents.getD 0x14D 0).val) :
    ∃ o o_fail report,
      load_cart ctx cart_filename (some contents) = some o ∧
      load_cart ctx cart_filename none = some o_fail ∧
      o.ret = false ∧ o_fail.ret = false ∧
      o.printed = some report ∧ report.passed = false ∧
      o_fail.printed = none := by
  have h := load_cart_eq ctx cart_filename contents (by omega) hhi htype hrom hram hlic
  have hcalc := calculated_checksum_eq (contents.set 0x143 0) (by rw [List.length_set]; omega)
  have hget : (contents.set 0x143 0).getD 0x14D 0 = contents.getD 0x14D 0 := by
    rw [List.getD_eq_getElem?_getD, List.getD_eq_getElem?_getD,
      List.getElem?_set_ne (by norm_num)]
  have hfalse : validate_passed (contents.set 0x143 0) = false := by
    unfold validate_passed
    rw [hget, decide_eq_false_iff_not]
    intro hc
    rw [hcalc, hc] at hmis
    exact hmis rfl
  refine ⟨_, _, _, h, rfl, hfalse, rfl, rfl, hfalse, rfl⟩

/-- The amended C16 at the file `image_zero`. -/
theorem load_cart_mismatch_vs_open_failure_witness :
    (0x150 ≤ image_zero.length ∧ image_zero.length < 2 ^ 32 ∧
      calculated_checksum (image_zero.set 0x143 0) ≠ some (image_zero.getD 0x14D 0).val) ∧
    ∃ o o_fail report,
      load_cart ctx_init rom_gb (some image_zero) = some o ∧
      load_cart ctx_init rom_gb none = some o_fail ∧
      o.ret = false ∧ o_fail.ret = false ∧
      o.printed = some report ∧ report.passed = false ∧
      o_fail.printed = none :=
  ⟨by decide,
   load_cart_mismatch_vs_open_failure ctx_init rom_gb image_zero (by decide) (by decide)
     (by decide) (by decide) (by decide) (by decide) (by decide)⟩

/-! ## The bytes the checksum loop reads -/

theorem checksum_loop_visits_eq : checksum_loop_visits 0x10000 0x0134 = List.range' 0x0134 25 := by
  decide

theorem checksum_loop_eq_u16 (rom_data : List u8) (hlen : 0x14D ≤ rom_data.length) :
    checksum_loop rom_data 0x10000 0x0134 0 =
      some (checksum_u16
        ((checksum_loop_visits 0x10000 0x0134).map (fun a => rom_data.getD a 0))) := by
  rw [checksum_loop_eq rom_data hlen 0x10000 0x0134 0 (by norm_num) (by norm_num),
    checksum_loop_visits_eq]
  unfold checksum_u16
  rw [List.foldl_map]

theorem checksum_u16_mask_foldl (bytes : List u8) :
    ∀ (acc16 acc8 : Nat), acc16 % 256 = acc8 →
      (bytes.foldl (fun (calculated : Nat) (byte : u8) =>
        to_u16 ((calculated : Int) - (byte.val : Int) - 1)) acc16) % 256 =
      bytes.foldl (fun (checksum : Nat) (byte : u8) =>
        (((checksum : Int) - (byte.val : Int) - 1) % 256).toNat) acc8 := by
  induction bytes with
  | nil => intro acc16 acc8 h; simpa using h
  | cons b rest ih =>
    intro acc16 acc8 h
    rw [List.foldl_cons, List.foldl_cons]
    exact ih _ _ (mask_step acc16 acc8 b h)

theorem checksum_u16_mask (bytes : List u8) : checksum_u16 bytes &&& 0xFF = checksum_u8 bytes := by
  have hmask : ∀ x : Nat, x &&& 0xFF = x % 256 := fun x =>
    Nat.and_pow_two_sub_one_eq_mod x 8
  rw [hmask]
  exact checksum_u16_mask_foldl bytes 0 0 rfl

theorem calculated_checksum_eq_u8 (rom_data : List u8) (hlen : 0x14D ≤ rom_data.length) :
    calculated_checksum rom_data =
      some (checksum_u8
        ((checksum_loop_visits 0x10000 0x0134).map (fun a => rom_data.getD a 0))) := by
  unfold calculated_checksum
  rw [checksum_loop_eq_u16 rom_data hlen]
  simp only []
  rw [checksum_u16_mask]

theorem checksum_u8_closed_foldl (bytes : List u8) :
    ∀ acc : Nat, acc < 256 →
      bytes.foldl (fun (checksum : Nat) (byte : u8) =>
        (((checksum : Int) - (byte.val : Int) - 1) % 256).toNat) acc < 256 ∧
      (bytes.foldl (fun (checksum : Nat) (byte : u8) =>
        (((checksum : Int) - (byte.val : Int) - 1) % 256).toNat) acc
        + bytes.length + (bytes.map (fun b => b.val)).sum) % 256 = acc := by
  induction bytes with
  | nil => intro acc h; simp; omega
  | cons b rest ih =>
    intro acc h
    have hstep : (((acc : Int) - (b.val : Int) - 1) % 256).toNat < 256 := by omega
    obtain ⟨h1, h2⟩ := ih _ hstep
    rw [List.foldl_cons]
    refine ⟨h1, ?_⟩
    simp only [List.length_cons, List.map_cons, List.sum_cons]
    have hb := b.isLt
    omega

theorem checksum_u8_closed (bytes : List u8) :
    checksum_u8 bytes < 256 ∧
    (checksum_u8 bytes + bytes.length + (bytes.map (fun b => b.val)).sum) % 256 = 0 :=
  checksum_u8_closed_foldl bytes 0 (by norm_num)

/-- C17 as stated fails: the loop of `load_cart` reads 25 bytes, not 29. -/
theorem checksum_loop_visits_not_29 :
    (checksum_loop_visits 0x10000 0x0134).length = 25 ∧
    (checksum_loop_visits 0x10000 0x0134).length ≠ 29 := by
  decide

/-- C17, amended: the loop of `load_cart` processes exactly 25 bytes, those at
the offsets 0x134 through 0x14C inclusive, from the first byte of `title`
through `mask_rom_version_number` (16 + 2 + 7 bytes); its result is the
accumulation over the bytes at these 25 offsets in order. -/
theorem checksum_loop_visits_25 (rom_data : List u8) (hlen : 0x14D ≤ rom_data.length) :
    checksum_loop_visits 0x10000 0x0134 = List.range' 0x0134 25 ∧
    (checksum_loop_visits 0x10000 0x0134).length = 25 ∧
    (∀ a, a ∈ checksum_loop_visits 0x10000 0x0134 ↔ 0x134 ≤ a ∧ a ≤ 0x14C) ∧
    0x100 + off_title = 0x134 ∧
    0x100 + off_mask_rom_version_number = 0x14C ∧
    16 + 2 + 7 = (checksum_loop_visits 0x10000 0x0134).length ∧
    checksum_loop rom_data 0x10000 0x0134 0 =
      some (checksum_u16
        ((checksum_loop_visits 0x10000 0x0134).map (fun a => rom_data.getD a 0))) := by
  refine ⟨checksum_loop_visits_eq, by decide, ?_, rfl, rfl, by decide,
    checksum_loop_eq_u16 rom_data hlen⟩
  intro a
  rw [checksum_loop_visits_eq, List.mem_range'_1]
  omega

/-- The amended C17 at the image `image_cgb`. -/
theorem checksum_loop_visits_25_witness :
    0x14D ≤ image_cgb.length ∧
    (checksum_loop_visits 0x10000 0x0134).length = 25 ∧
    checksum_loop image_cgb 0x10000 0x0134 0 =
      some (checksum_u16
        ((checksum_loop_visits 0x10000 0x0134).map (fun a => image_cgb.getD a 0))) :=
  ⟨by decide, (checksum_loop_visits_25 image_cgb (by decide)).2.1,
   (checksum_loop_visits_25 image_cgb (by decide)).2.2.2.2.2.2⟩

/-- C18: over every sequence of bytes, the accumulation in a `u16` masked with
0xFF at the end equals the accumulation in a `uint8_t`; so the `u16` loop of
`load_cart` followed by the mask computes the documented 8-bit checksum of the
bytes it reads. -/
theorem checksum_u16_refines_u8 (bytes rom_data : List u8) (hlen : 0x14D ≤ rom_data.length) :
    checksum_u16 bytes &&& 0xFF = checksum_u8 bytes ∧
    checksum_loop rom_data 0x10000 0x0134 0 =
      some (checksum_u16
        ((checksum_loop_visits 0x10000 0x0134).map (fun a => rom_data.getD a 0))) ∧
    calculated_checksum rom_data =
      some (checksum_u8
        ((checksum_loop_visits 0x10000 0x0134).map (fun a => rom_data.getD a 0))) :=
  ⟨checksum_u16_mask bytes, checksum_loop_eq_u16 rom_data hlen,
   calculated_checksum_eq_u8 rom_data hlen⟩

/-- C18 at the bytes 0x80, 0xFF, 0x01 and the image `image_cgb`. -/
theorem checksum_u16_refines_u8_witness :
    0x14D ≤ image_cgb.length ∧
    checksum_u16 [0x80, 0xFF, 0x01] &&& 0xFF = checksum_u8 [0x80, 0xFF, 0x01] ∧
    calculated_checksum image_cgb =
      some (checksum_u8
        ((checksum_loop_visits 0x10000 0x0134).map (fun a => image_cgb.getD a 0))) :=
  ⟨by decide, (checksum_u16_refines_u8 [0x80, 0xFF, 0x01] image_cgb (by decide)).1,
   (checksum_u16_refines_u8 [0x80, 0xFF, 0x01] image_cgb (by decide)).2.2⟩

/-- C19: for every file of at least 0x150 bytes, the checksum `c` that
`load_cart` computes over its image (the file with 0 stored at 0x143) satisfies
`(c + n + S) mod 256 = 0`, where `n` is the number of bytes the loop visits and
`S` the sum of the bytes it reads; when all those bytes read as 0, `c` is 0xE7.
Whenever `load_cart` returns, that image is the one it leaves in the context
and the value it returns is the comparison of `c` with the byte at 0x14D. -/
theorem calculated_checksum_closed_form (contents : List u8) (hlo : 0x150 ≤ contents.length) :
    ∃ c,
      calculated_checksum (contents.set 0x143 0) = some c ∧
      (c + (checksum_loop_visits 0x10000 0x0134).length +
        ((checksum_loop_visits 0x10000 0x0134).map
          (fun a => ((contents.set 0x143 0).getD a 0).val)).sum) % 256 = 0 ∧
      ((∀ a ∈ checksum_loop_visits 0x10000 0x0134, (contents.set 0x143 0).getD a 0 = 0) →
        c = 0xE7) ∧
      (∀ (ctx : cart_context) (cart_filename : List u8) (o : load_outcome),
        contents.length < 2 ^ 32 →
        load_cart ctx cart_filename (some contents) = some o →
        o.ctx.rom_data = contents.set 0x143 0 ∧
        o.ret = decide (c = (contents.getD 0x14D 0).val)) := by
  have hcalc := calculated_checksum_eq_u8 (contents.set 0x143 0)
    (by rw [List.length_set]; omega)
  have hclosed := checksum_u8_closed
    ((checksum_loop_visits 0x10000 0x0134).map (fun a => (contents.set 0x143 0).getD a 0))
  rw [List.length_map, List.map_map] at hclosed
  have hlenv : (checksum_loop_visits 0x10000 0x0134).length = 25 := by decide
  refine ⟨_, hcalc, hclosed.2, ?_, ?_⟩
  · intro hz
    have hsum : ((checksum_loop_visits 0x10000 0x0134).map
        ((fun b : u8 => b.val) ∘ fun a => (contents.set 0x143 0).getD a 0)).sum = 0 := by
      apply List.sum_eq_zero
      intro x hx
      obtain ⟨a, ha, rfl⟩ := List.mem_map.1 hx
      simp only [Function.comp_apply]
      rw [hz a ha]
      rfl
    have h2 := hclosed.2
    rw [hsum, hlenv] at h2
    have h1 := hclosed.1
    omega
  · intro ctx cart_filename o hhi hload
    obtain ⟨_, hdata, report, calculated, _, _, hc, hret⟩ :=
      load_cart_some_inv ctx cart_filename contents o hhi hload
    rw [hcalc] at hc
    rw [← Option.some.inj hc] at hret
    exact ⟨hdata, hret⟩

/-- C19 at the file `image_zero`, all of whose bytes are 0: the computed
checksum is 0xE7. -/
theorem calculated_checksum_closed_form_witness :
    0x150 ≤ image_zero.length ∧
    ∃ c,
      calculated_checksum (image_zero.set 0x143 0) = some c ∧
      (c + (checksum_loop_visits 0x10000 0x0134).length +
        ((checksum_loop_visits 0x10000 0x0134).map
          (fun a => ((image_zero.set 0x143 0).getD a 0).val)).sum) % 256 = 0 ∧
      ((∀ a ∈ checksum_loop_visits 0x10000 0x0134, (image_zero.set 0x143 0).getD a 0 = 0) →
        c = 0xE7) ∧
      (∀ (ctx : cart_context) (cart_filename : List u8) (o : load_outcome),
        image_zero.length < 2 ^ 32 →
        load_cart ctx cart_filename (some image_zero) = some o →
        o.ctx.rom_data = image_zero.set 0x143 0 ∧
        o.ret = decide (c = (image_zero.getD 0x14D 0).val)) :=
  ⟨by decide, calculated_checksum_closed_form image_zero (by decide)⟩

/-! ## What the result of `load_cart` depends on -/

theorem header_u8_image (name : List u8) (n : Nat) (rom_data : List u8) (off : Nat) :
    header_u8 { filename := name, rom_size := n, rom_data := rom_data,
                header := some 0x100 } off = rom_data[0x100 + off]? :=
  rfl

theorem getElem?_set_agree (m1 m2 : List u8) (hlen : m1.length = m2.length) (i : Nat)
    (h : i ≠ 0x143 → m1[i]? = m2[i]?) :
    (m1.set 0x143 0)[i]? = (m2.set 0x143 0)[i]? := by
  rw [List.getElem?_set, List.getElem?_set, hlen]
  by_cases hi : 0x143 = i
  · rw [if_pos hi, if_pos hi]
  · rw [if_neg hi, if_neg hi]
    exact h (fun hc => hi hc.symm)

theorem getElem?_take_agree (b1 b2 : List u8) (k i : Nat) (h : b1[i]? = b2[i]?) :
    (b1.take k)[i]? = (b2.take k)[i]? := by
  rw [List.getElem?_take, List.getElem?_take, h]

theorem checksum_loop_congr (r1 r2 : List u8)
    (h : ∀ a, 0x134 ≤ a → a ≤ 0x14C → r1[a]? = r2[a]?) :
    ∀ (fuel address calculated : Nat), 0x134 ≤ address →
      checksum_loop r1 fuel address calculated = checksum_loop r2 fuel address calculated := by
  intro fuel
  induction fuel with
  | zero => intro address calculated _; rfl
  | succ fuel ih =>
    intro address calculated ha
    unfold checksum_loop
    by_cases hle : address ≤ 0x14C
    · rw [if_pos hle, if_pos hle, h address ha hle, to_u16_succ address (by omega)]
      cases r2[address]? with
      | none => rfl
      | some b => exact ih _ _ (by omega)
    · rw [if_neg hle, if_neg hle]

theorem calculated_checksum_congr (r1 r2 : List u8)
    (h : ∀ a, 0x134 ≤ a → a ≤ 0x14C → r1[a]? = r2[a]?) :
    calculated_checksum r1 = calculated_checksum r2 := by
  unfold calculated_checksum
  rw [checksum_loop_congr r1 r2 h 0x10000 0x0134 0 (by norm_num)]

theorem load_cart_ret_congr (ctx : cart_context) (cart_filename b1 b2 : List u8)
    (hlen : b1.length = b2.length)
    (hagree : ∀ i, 0x134 ≤ i → i ≤ 0x14D → i ≠ 0x143 → b1[i]? = b2[i]?) :
    (load_cart ctx cart_filename (some b1)).map (fun o => o.ret) =
      (load_cart ctx cart_filename (some b2)).map (fun o => o.ret) := by
  have hl : (b1.take (b2.length % 2 ^ 32)).length = (b2.take (b2.length % 2 ^ 32)).length := by
    rw [List.length_take, List.length_take, hlen]
  have hag : ∀ i, 0x134 ≤ i → i ≤ 0x14D →
      ((b1.take (b2.length % 2 ^ 32)).set 0x143 0)[i]? =
        ((b2.take (b2.length % 2 ^ 32)).set 0x143 0)[i]? := by
    intro i h1 h2
    exact getElem?_set_agree _ _ hl i
      (fun hne => getElem?_take_agree b1 b2 _ i (hagree i h1 h2 hne))
  have hcalc := calculated_checksum_congr _ _ (fun a h1 h2 => hag a h1 (by omega))
  simp only [load_cart, header_store_u8, hlen, hl, off_cartridge_type, off_sgb_flag,
    off_licensee_code, off_title, off_logo, off_entry_point, off_mask_rom_version_number,
    off_old_licensee_code, off_destination_code, off_ram_size, off_rom_size,
    off_header_checksum, Nat.reduceAdd]
  by_cases hlt : 323 < (b2.take (b2.length % 2 ^ 32)).length
  · have ht1 := c_string_at_title (b1.take (b2.length % 2 ^ 32)) (by rw [hl]; exact hlt)
    have ht2 := c_string_at_title (b2.take (b2.length % 2 ^ 32)) hlt
    rw [if_pos hlt, if_pos hlt]
    simp only [Option.bind_eq_bind, Option.some_bind, ht1, ht2, hcalc]
    simp only [header_u8_image, header_u16, get_cartridge_type, get_rom_size, get_ram_size,
      get_licensee, off_cartridge_type, off_sgb_flag, off_licensee_code, off_title, off_logo,
      off_entry_point, off_rom_size, off_ram_size, Nat.reduceAdd]
    simp only [hag 324 (by norm_num) (by norm_num), hag 325 (by norm_num) (by norm_num),
      hag 327 (by norm_num) (by norm_num), hag 328 (by norm_num) (by norm_num),
      hag 329 (by norm_num) (by norm_num), hag 332 (by norm_num) (by norm_num),
      hag 333 (by norm_num) (by norm_num)]
    simp only [Option.map_bind, Function.comp_def, Option.map_some']
  · rw [if_neg hlt, if_neg hlt]

theorem load_cart_congr (ctx : cart_context) (cart_filename b1 b2 : List u8)
    (hlen : b1.length = b2.length) (hdiff : ∀ i, i ≠ 0x143 → b1[i]? = b2[i]?) :
    load_cart ctx cart_filename (some b1) = load_cart ctx cart_filename (some b2) := by
  have hl : (b1.take (b2.length % 2 ^ 32)).length = (b2.take (b2.length % 2 ^ 32)).length := by
    rw [List.length_take, List.length_take, hlen]
  have hset : (b1.take (b2.length % 2 ^ 32)).set 0x143 0 =
      (b2.take (b2.length % 2 ^ 32)).set 0x143 0 := by
    apply List.ext_getElem?
    intro i
    exact getElem?_set_agree _ _ hl i (fun hne => getElem?_take_agree b1 b2 _ i (hdiff i hne))
  simp only [load_cart, header_store_u8, hlen, hl, off_title, off_logo, off_entry_point,
    Nat.reduceAdd, hset]

/-- C20: for every two files of equal length of at least 0x150 bytes that
agree at the offsets 0x134..0x142 and 0x144..0x14D, `load_cart` computes the
same checksum and returns the same value; when they differ only at offset
0x143 the whole outcome of `load_cart` is the same. -/
theorem load_cart_ignores_byte_0x143 (ctx : cart_context) (cart_filename b1 b2 : List u8)
    (hlen : b1.length = b2.length) (hlo : 0x150 ≤ b1.length)
    (hagree : ∀ i, 0x134 ≤ i → i ≤ 0x14D → i ≠ 0x143 → b1[i]? = b2[i]?) :
    (∃ c, calculated_checksum (b1.set 0x143 0) = some c ∧
      calculated_checksum (b2.set 0x143 0) = some c) ∧
    (load_cart ctx cart_filename (some b1)).map (fun o => o.ret) =
      (load_cart ctx cart_filename (some b2)).map (fun o => o.ret) ∧
    ((∀ i, i ≠ 0x143 → b1[i]? = b2[i]?) →
      load_cart ctx cart_filename (some b1) = load_cart ctx cart_filename (some b2)) := by
  have hc1 := calculated_checksum_eq (b1.set 0x143 0) (by rw [List.length_set]; omega)
  have hcongr := calculated_checksum_congr (b1.set 0x143 0) (b2.set 0x143 0)
    (fun a h1 h2 => getElem?_set_agree b1 b2 hlen a (hagree a h1 (by omega)))
  refine ⟨⟨_, hc1, ?_⟩, load_cart_ret_congr ctx cart_filename b1 b2 hlen hagree,
    load_cart_congr ctx cart_filename b1 b2 hlen⟩
  rw [← hcongr, hc1]

/-- C20 at the files `image_cgb` and `image_dmg`, which differ at 0x143 only. -/
theorem load_cart_ignores_byte_0x143_witness :
    (image_cgb.length = image_dmg.length ∧ 0x150 ≤ image_cgb.length ∧
      image_cgb[0x143]? ≠ image_dmg[0x143]?) ∧
    (load_cart ctx_init rom_gb (some image_cgb)).map (fun o => o.ret) =
      (load_cart ctx_init rom_gb (some image_dmg)).map (fun o => o.ret) ∧
    load_cart ctx_init rom_gb (some image_cgb) = load_cart ctx_init rom_gb (some image_dmg) := by
  have hset : image_cgb = image_dmg.set 0x143 0x80 := by decide
  have hdiff : ∀ i, i ≠ 0x143 → image_cgb[i]? = image_dmg[i]? := by
    intro i hi
    rw [hset, List.getElem?_set_ne (fun hc => hi hc.symm)]
  have h := load_cart_ignores_byte_0x143 ctx_init rom_gb image_cgb image_dmg (by decide)
    (by decide) (fun i _ _ hi => hdiff i hi)
  exact ⟨by decide, h.2.1, h.2.2 hdiff⟩

end Cart
